import Mathlib

/-!
Verification of the mosquito trajectory playback engine.

The development shallowly embeds the two JavaScript source files of the
repository:

* src/simulation.js — the multi-stream precompute/playback engine
  (four datasets driven in lockstep by one animation loop); and
* the single-canvas variant (simulation plus distribution view), which
  shares the CSV parser, the timeline extraction and the trail resolver
  shape with different configuration constants.

Modelling conventions:

* JS numbers are modelled as exact rationals.  Every float value is a
  rational, so this is faithful for all NaN-free data; the specification
  (section 1) places the data source "in a parsed, validated form" out of
  scope, and NaN produced by a failed parse is modelled explicitly as the
  none case of an optional rational in the CSV parser.
* Canvases are modelled by a Surface value recording what was last drawn
  (a precomputed frame, a progress indicator, or blank); rasterisation
  itself is outside the model, so a precomputed frame is an opaque token.
* The DOM button label text is presentation only and is not modelled.
* Asynchronous callbacks run on the single cooperative thread, so each
  listener body and the synchronous completion tail of precomputeFrames
  are modelled as atomic state transformers, and the engine as a whole as
  a transition system over those events.
-/

namespace MosquitoSim

/-- Frame rate constant FPS of both source files. -/
def FPS : ℚ := 50

/-- Milliseconds per tick, FRAME_INTERVAL = 1000 / FPS. -/
def FRAME_INTERVAL : ℚ := 1000 / FPS

/-- Trail length of src/simulation.js (the single-canvas variant uses 10). -/
def TRAIL_LENGTH : Nat := 5

/-- Trail length of the single-canvas variant source file. -/
def TRAIL_LENGTH_single : Nat := 10

/-- One row of trajectory data, the record shape produced by parseCSV and
consumed by the renderer: time, trajectory_id, x, y, vx, vy, speed.  All
fields are JS numbers, modelled as exact rationals. -/
structure Sample where
  time : ℚ
  trajectory_id : ℚ
  x : ℚ
  y : ℚ
  vx : ℚ
  vy : ℚ
  speed : ℚ
  deriving DecidableEq

/-- An opaque precomputed raster; the pixel content is outside the model,
only identity matters to the playback layer. -/
abbrev Frame := Nat

/-- What a stream's canvas currently shows: nothing, a precomputed frame,
or the precomputation progress indicator text. -/
inductive Surface where
  | blank : Surface
  | frameImage : Frame → Surface
  | progressText : Nat → Surface
  deriving DecidableEq

/-- Per-dataset state of src/simulation.js (the record built in
initAllSimulations, lines 60 to 69), plus the displayed surface standing
in for the canvas contents. -/
structure Sim where
  mosquitoData : List Sample
  timePoints : List ℚ
  currentTimeIndex : Nat
  precomputedFrames : List Frame
  isPrecomputing : Bool
  precomputeProgress : Nat
  isReady : Bool
  displayed : Surface
  deriving DecidableEq

/-- Global engine state of src/simulation.js: the simulations table and the
module-level mutable variables read by the animation loop and the
transport listeners. -/
structure EngineState where
  sims : List Sim
  isPlaying : Bool
  lastFrameTime : ℚ
  precomputedDatasets : Nat
  totalDatasetsToLoad : Nat
  deriving DecidableEq

/-- JS remainder x % y for the nonnegative operands the clock feeds it
(deltaTime ≥ FRAME_INTERVAL > 0), where it coincides with
x - y * floor (x / y). -/
def jsMod (x y : ℚ) : ℚ := x - y * ((⌊x / y⌋ : ℤ) : ℚ)

/-- JS Set-based deduplication as in new Set(array): keeps the first
occurrence of each value, in encounter order. -/
def jsSetDedup (l : List ℚ) : List ℚ :=
  l.foldl (fun acc x => if x ∈ acc then acc else acc ++ [x]) []

/-- Timeline extraction, line 103 of src/simulation.js (line 53 of the
single-canvas variant is identical): spread a Set of the time column into
an array and sort it ascending numerically. -/
def extractTimePoints (data : List Sample) : List ℚ :=
  List.insertionSort (· ≤ ·) (jsSetDedup (data.map (fun r => r.time)))

/-- The tick advance of the playback clock, line 246 of src/simulation.js
(line 133 of the single-canvas variant): increment modulo the timeline
length. -/
def advanceTick (numTimePoints i : Nat) : Nat := (i + 1) % numTimePoints

/-- Per-sim update inside the playing branch of animateAll, lines 235 to
247 of src/simulation.js: when the frame store is nonempty, clear the
canvas, draw the precomputed frame at the current tick when it exists,
then advance the tick.  A JS remainder with zero modulus would give NaN,
but a nonempty frame store implies a nonempty timeline in every reachable
state, because frames are only ever stored at timeline indices; theorems
about playback carry that invariant as a hypothesis. -/
def stepSim (sim : Sim) : Sim :=
  if 0 < sim.precomputedFrames.length then
    { sim with
        displayed :=
          match sim.precomputedFrames.get? sim.currentTimeIndex with
          | some f => Surface.frameImage f
          | none => Surface.blank,
        currentTimeIndex := advanceTick sim.timePoints.length sim.currentTimeIndex }
  else sim

/-- One wake-up of the animation loop, lines 220 to 264 of
src/simulation.js (animateAll).  The requestAnimationFrame re-arming is
the driver of the event stream, not state.  The falsy check on
lastFrameTime is an equality test with 0, its only falsy value here since
timestamps are nonnegative. -/
def animateAll (timestamp : ℚ) (st : EngineState) : EngineState :=
  let st1 := if st.lastFrameTime = 0 then { st with lastFrameTime := timestamp } else st
  let deltaTime := timestamp - st1.lastFrameTime
  let allReady := st1.sims.all (fun sim => sim.isReady)
  if st1.isPlaying && allReady then
    if FRAME_INTERVAL ≤ deltaTime then
      { st1 with
          lastFrameTime := timestamp - jsMod deltaTime FRAME_INTERVAL,
          sims := st1.sims.map stepSim }
    else st1
  else if !allReady then
    { st1 with
        sims := st1.sims.map (fun sim =>
          if sim.isPrecomputing then
            { sim with displayed := Surface.progressText sim.precomputeProgress }
          else sim) }
  else st1

/-- The playPauseBtn click listener, lines 364 to 367 of src/simulation.js
(identical in the single-canvas variant).  The button label text is DOM
presentation and is not modelled. -/
def clickPlayPause (st : EngineState) : EngineState :=
  { st with isPlaying := !st.isPlaying }

/-- Per-sim body of the resetBtn click listener, lines 371 to 379 of
src/simulation.js: snap the tick index to 0 and, when the frame store is
nonempty and holds a frame at index 0, clear the canvas and draw that
frame at once. -/
def resetSim (sim : Sim) : Sim :=
  { sim with
      currentTimeIndex := 0,
      displayed :=
        if 0 < sim.precomputedFrames.length then
          match sim.precomputedFrames.get? 0 with
          | some f => Surface.frameImage f
          | none => sim.displayed
        else sim.displayed }

/-- The resetBtn click listener, lines 369 to 381 of src/simulation.js:
apply the reset body to every simulation. -/
def clickReset (st : EngineState) : EngineState :=
  { st with sims := st.sims.map resetSim }

/-- Replace the element at an index of a list, leaving other positions and
out-of-range indices alone. -/
def modifyNth (f : Sim → Sim) : Nat → List Sim → List Sim
  | _, [] => []
  | 0, sim :: sims => f sim :: sims
  | n + 1, sim :: sims => sim :: modifyNth f n sims

/-- Per-sim part of the synchronous completion tail of precomputeFrames,
lines 197 to 204 of src/simulation.js: clear the flags, then clear the
canvas and draw frame 0 when it exists.  The chunked loop that filled the
frame store has already run. -/
def precomputeFinishSim (sim : Sim) : Sim :=
  { sim with
      isPrecomputing := false,
      isReady := true,
      displayed :=
        match sim.precomputedFrames.get? 0 with
        | some f => Surface.frameImage f
        | none => Surface.blank }

/-- Global part of the completion tail of precomputeFrames, lines 197 to
216 of src/simulation.js: finish the dataset at index di, increment the
precomputed counter, and when the counter reaches the configured total,
set isPlaying to true. -/
def precomputeFinish (di : Nat) (st : EngineState) : EngineState :=
  let st1 := { st with
                 sims := modifyNth precomputeFinishSim di st.sims,
                 precomputedDatasets := st.precomputedDatasets + 1 }
  if st1.precomputedDatasets = st1.totalDatasetsToLoad then
    { st1 with isPlaying := true }
  else st1

/-- The cooperative callbacks that touch the shared engine state: a
dataset completing precomputation, the two transport clicks, and an
animation-loop wake-up at a timestamp. -/
inductive Event where
  | finish : Nat → Event
  | togglePlayPause : Event
  | reset : Event
  | wake : ℚ → Event
  deriving DecidableEq

/-- Dispatch one event to the corresponding handler. -/
def applyEvent (st : EngineState) : Event → EngineState
  | Event.finish di => precomputeFinish di st
  | Event.togglePlayPause => clickPlayPause st
  | Event.reset => clickReset st
  | Event.wake t => animateAll t st

/-- Run a sequence of events from a state. -/
def runEvents (st : EngineState) (es : List Event) : EngineState :=
  es.foldl applyEvent st

/-- Whether an event is a precomputation completion. -/
def isFinishEvent : Event → Bool
  | Event.finish _ => true
  | _ => false

/-- The per-dataset record as initAllSimulations creates it, lines 60 to
69 of src/simulation.js, before any data has loaded. -/
def initSim : Sim :=
  { mosquitoData := []
    timePoints := []
    currentTimeIndex := 0
    precomputedFrames := []
    isPrecomputing := false
    precomputeProgress := 0
    isReady := false
    displayed := Surface.blank }

/-- The module-level initial state of src/simulation.js: four configured
datasets, counters at zero, and isPlaying false (line 392 runs at module
load, before any callback). -/
def initEngine : EngineState :=
  { sims := [initSim, initSim, initSim, initSim]
    isPlaying := false
    lastFrameTime := 0
    precomputedDatasets := 0
    totalDatasetsToLoad := 4 }

/-- JS Array.prototype.indexOf: the first index whose element is strictly
equal to the argument, or -1 when there is none. -/
def jsIndexOf (x : ℚ) (l : List ℚ) : Int :=
  match l.findIdx? (fun y => decide (y = x)) with
  | some n => (n : Int)
  | none => -1

/-- The find inside getTrailData, lines 291 to 294 of src/simulation.js:
the first sample of the stream with the given trajectory_id whose time is
strictly equal to prevTime.  prevTime is an out-of-range-safe array read,
so it may be undefined (none), which never compares equal to a number. -/
def findPrevPosition (data : List Sample) (trajId : ℚ) (prevTime : Option ℚ) :
    Option Sample :=
  data.find? (fun row =>
    decide (row.trajectory_id = trajId) && decide (some row.time = prevTime))

/-- The loop body of getTrailData over the remaining offsets i: stop at
the first offset that would take the tick index below 0, otherwise look up
the sample at that historical tick and keep it when present. -/
def getTrailAux (data : List Sample) (tps : List ℚ) (trajId : ℚ) (timeIndex : Int) :
    List Nat → List Sample
  | [] => []
  | i :: rest =>
    if timeIndex - (i : Int) < 0 then []
    else
      match findPrevPosition data trajId (tps.get? (timeIndex - (i : Int)).toNat) with
      | some prevPosition => prevPosition :: getTrailAux data tps trajId timeIndex rest
      | none => getTrailAux data tps trajId timeIndex rest

/-- The trail resolver with its two configuration constants: the start
offset and the number of scanned offsets.  The loop of src/simulation.js
lines 286 to 299 runs i from 3 to TRAIL_LENGTH + 2, which is the offset
list range' 3 TRAIL_LENGTH; the single-canvas variant runs i from 1 to
its TRAIL_LENGTH, which is range' 1 TRAIL_LENGTH_single. -/
def getTrailDataGen (startOffset count : Nat) (m : Sample) (data : List Sample)
    (tps : List ℚ) : List Sample :=
  getTrailAux data tps m.trajectory_id (jsIndexOf m.time tps)
    (List.range' startOffset count)

/-- getTrailData of src/simulation.js, lines 281 to 302. -/
def getTrailData (m : Sample) (sim : Sim) : List Sample :=
  getTrailDataGen 3 TRAIL_LENGTH m sim.mosquitoData sim.timePoints

/-- getTrailData of the single-canvas variant, lines 182 to 203. -/
def getTrailDataSingle (m : Sample) (data : List Sample) (tps : List ℚ) : List Sample :=
  getTrailDataGen 1 TRAIL_LENGTH_single m data tps

/-- JS parseFloat lifted to possibly-undefined arguments: parseFloat of
undefined is NaN, and a defined string parses through the abstract parse
function pf, whose none result stands for NaN. -/
def jsParseFloat (pf : String → Option ℚ) : Option String → Option ℚ
  | none => none
  | some s => pf s

/-- JS object property assignment row[k] = v on a string-keyed record:
overwrite in place when the key exists, append the new key otherwise. -/
def objSet : List (String × Option ℚ) → String → Option ℚ → List (String × Option ℚ)
  | [], k, v => [(k, v)]
  | p :: row, k, v => if p.1 = k then (k, v) :: row else p :: objSet row k v

/-- JS object property read: the value at the key when present (in a
record built by objSet each key occurs at most once). -/
def objGet : List (String × Option ℚ) → String → Option (Option ℚ)
  | [], _ => none
  | p :: row, key => if p.1 = key then some p.2 else objGet row key

/-- The headers.forEach body of parseCSV with its running index: assign
row[header] = parseFloat(values[index]) for each header in order. -/
def buildRowAux (pf : String → Option ℚ) (values : List String) :
    Nat → List String → List (String × Option ℚ) → List (String × Option ℚ)
  | _, [], row => row
  | i, h :: hs, row =>
      buildRowAux pf values (i + 1) hs (objSet row h (jsParseFloat pf (values.get? i)))

/-- One record of parseCSV: fold the header list over an empty object. -/
def buildRow (pf : String → Option ℚ) (headers values : List String) :
    List (String × Option ℚ) :=
  buildRowAux pf values 0 headers []

/-- parseCSV, lines 128 to 142 of src/simulation.js (lines 70 to 84 of the
single-canvas variant): trim, split into lines, take the first line as the
header row, and turn every remaining line into a record.  String splitting
always yields at least one piece, so the header read never fails.  The
numeric parse pf is the only external primitive. -/
def parseCSV (pf : String → Option ℚ) (csvText : String) :
    List (List (String × Option ℚ)) :=
  let lines := csvText.trim.splitOn "\n"
  let headers := (lines.headD "").splitOn ","
  (lines.drop 1).map (fun line => buildRow pf headers (line.splitOn ","))

/-- Concrete query sample for the trail witness: trajectory 1 at time 4,
sitting at tick 4 of a five-tick timeline with no earlier sample of its
trajectory — an entity with no prior history. -/
def sampleQuery5 : Sample :=
  { time := 4, trajectory_id := 1, x := 0, y := 0, vx := 0, vy := 0, speed := 0 }

/-- Concrete ready stream used by the playback witnesses. -/
def simReady : Sim :=
  { mosquitoData := []
    timePoints := [0, 1, 2]
    currentTimeIndex := 2
    precomputedFrames := [40, 41, 42]
    isPrecomputing := false
    precomputeProgress := 100
    isReady := true
    displayed := Surface.blank }

/-- Concrete ready engine state used by the playback witnesses. -/
def engineReady : EngineState :=
  { sims := [simReady]
    isPlaying := true
    lastFrameTime := 100
    precomputedDatasets := 1
    totalDatasetsToLoad := 1 }

/-- Concrete ready stream with a length-2 timeline. -/
def simReadyLen2 : Sim :=
  { mosquitoData := []
    timePoints := [0, 1]
    currentTimeIndex := 1
    precomputedFrames := [50, 51]
    isPrecomputing := false
    precomputeProgress := 100
    isReady := true
    displayed := Surface.blank }

/-- Concrete two-stream ready engine with timelines of different lengths. -/
def engineReady2 : EngineState :=
  { sims := [simReadyLen2, { simReady with currentTimeIndex := 1 }]
    isPlaying := true
    lastFrameTime := 100
    precomputedDatasets := 2
    totalDatasetsToLoad := 2 }

section TimelineLemmas

lemma jsSetDedup_aux_nodup (l : List ℚ) :
    ∀ acc : List ℚ, acc.Nodup →
      (l.foldl (fun acc x => if x ∈ acc then acc else acc ++ [x]) acc).Nodup := by
  induction l with
  | nil => intro acc h; exact h
  | cons x l ih =>
    intro acc h
    simp only [List.foldl_cons]
    by_cases hx : x ∈ acc
    · simpa [hx] using ih acc h
    · have hconc : (acc ++ [x]).Nodup := by simp [List.nodup_append, h, hx]
      simpa [hx] using ih _ hconc

lemma jsSetDedup_nodup (l : List ℚ) : (jsSetDedup l).Nodup :=
  jsSetDedup_aux_nodup l [] List.nodup_nil

end TimelineLemmas

/-- C5. For every Sample set, the Timeline Extractor (collect distinct time
values and sort ascending numerically) yields a timeline with no duplicate
values that is strictly ascending, and the empty Sample set yields the
empty timeline. -/
theorem extractTimePoints_nodup_strictSorted :
    (∀ data : List Sample,
      (extractTimePoints data).Nodup ∧ (extractTimePoints data).Sorted (· < ·))
    ∧ extractTimePoints [] = [] := by
  constructor
  · intro data
    have hperm := List.perm_insertionSort (· ≤ ·) (jsSetDedup (data.map (fun r => r.time)))
    have hnodup : (extractTimePoints data).Nodup :=
      hperm.nodup_iff.mpr (jsSetDedup_nodup _)
    have hsorted : (extractTimePoints data).Sorted (· ≤ ·) :=
      List.sorted_insertionSort _ _
    exact ⟨hnodup, hsorted.lt_of_le hnodup⟩
  · rfl

/-- C7. For a timeline of length N ≥ 1, applying the playback clock's tick
advance N consecutive times starting from tick 0 returns to tick 0, and
the tick index stays below N throughout. -/
theorem advanceTick_wraparound (N : Nat) (hN : 1 ≤ N) :
    (advanceTick N)^[N] 0 = 0 ∧ ∀ k, k ≤ N → (advanceTick N)^[k] 0 < N := by
  have hiter : ∀ k : Nat, (advanceTick N)^[k] 0 = k % N := by
    intro k
    induction k with
    | zero => simp
    | succ k ih =>
      rw [Function.iterate_succ_apply', ih, advanceTick, Nat.mod_add_mod]
  constructor
  · rw [hiter, Nat.mod_self]
  · intro k _
    rw [hiter]
    exact Nat.mod_lt _ (Nat.lt_of_lt_of_le Nat.zero_lt_one hN)

/-- Witness for C7 at the concrete timeline length 3. -/
theorem advanceTick_wraparound_witness :
    (advanceTick 3)^[3] 0 = 0 ∧ ∀ k, k ≤ 3 → (advanceTick 3)^[k] 0 < 3 :=
  advanceTick_wraparound 3 (by decide)

section EngineLemmas

lemma animateAll_globals (t : ℚ) (st : EngineState) :
    (animateAll t st).isPlaying = st.isPlaying
    ∧ (animateAll t st).precomputedDatasets = st.precomputedDatasets
    ∧ (animateAll t st).totalDatasetsToLoad = st.totalDatasetsToLoad := by
  unfold animateAll
  by_cases h0 : st.lastFrameTime = 0 <;>
    simp only [h0, if_true, if_false] <;>
    (split
     · split <;> simp_all
     · split <;> simp_all)

lemma stepSim_currentTimeIndex (sim : Sim) :
    (stepSim sim).currentTimeIndex
      = if 0 < sim.precomputedFrames.length then
          (sim.currentTimeIndex + 1) % sim.timePoints.length
        else sim.currentTimeIndex := by
  unfold stepSim
  split <;> simp [advanceTick]

lemma resetSim_idem (sim : Sim) : resetSim (resetSim sim) = resetSim sim := by
  cases sim with
  | mk md tp ci pf ip pp ir disp =>
    by_cases h : 0 < pf.length
    · cases hp : pf.get? 0 with
      | none => simp [resetSim, h, hp]
      | some f => simp [resetSim, h, hp]
    · simp [resetSim, h]

/-- Invariant preserved by every non-toggle event: isPlaying holds exactly
when the precomputed counter has reached the configured total. -/
lemma applyEvent_inv (st : EngineState) (e : Event)
    (hne : e ≠ Event.togglePlayPause)
    (h : st.isPlaying = decide (st.totalDatasetsToLoad ≤ st.precomputedDatasets)) :
    (applyEvent st e).isPlaying
      = decide ((applyEvent st e).totalDatasetsToLoad
          ≤ (applyEvent st e).precomputedDatasets) := by
  cases e with
  | togglePlayPause => exact absurd rfl hne
  | reset => simpa [applyEvent, clickReset] using h
  | wake t =>
    have hg := animateAll_globals t st
    simp only [applyEvent, hg.1, hg.2.1, hg.2.2]
    exact h
  | finish di =>
    simp only [applyEvent, precomputeFinish]
    by_cases hc : st.precomputedDatasets + 1 = st.totalDatasetsToLoad
    · simp [hc]
    · simp only [hc, if_false]
      rw [h]
      have : (st.totalDatasetsToLoad ≤ st.precomputedDatasets)
          ↔ (st.totalDatasetsToLoad ≤ st.precomputedDatasets + 1) := by omega
      simp [this]

lemma runEvents_inv (es : List Event) :
    ∀ st : EngineState, (∀ e ∈ es, e ≠ Event.togglePlayPause) →
      st.isPlaying = decide (st.totalDatasetsToLoad ≤ st.precomputedDatasets) →
      (runEvents st es).isPlaying
        = decide ((runEvents st es).totalDatasetsToLoad
            ≤ (runEvents st es).precomputedDatasets) := by
  induction es with
  | nil => intro st _ h; simpa [runEvents] using h
  | cons e es ih =>
    intro st hne h
    have hstep := applyEvent_inv st e (hne e (by simp)) h
    simpa [runEvents] using ih (applyEvent st e) (fun e2 he2 => hne e2 (by simp [he2])) hstep

lemma applyEvent_count (st : EngineState) (e : Event) :
    (applyEvent st e).precomputedDatasets
        = st.precomputedDatasets + (if isFinishEvent e then 1 else 0)
    ∧ (applyEvent st e).totalDatasetsToLoad = st.totalDatasetsToLoad := by
  cases e with
  | togglePlayPause => simp [applyEvent, clickPlayPause, isFinishEvent]
  | reset => simp [applyEvent, clickReset, isFinishEvent]
  | wake t =>
    have hg := animateAll_globals t st
    simp [applyEvent, hg.2.1, hg.2.2, isFinishEvent]
  | finish di =>
    constructor <;>
      (simp only [applyEvent, precomputeFinish]
       split <;> simp [isFinishEvent])

lemma runEvents_count (es : List Event) :
    ∀ st : EngineState,
      (runEvents st es).precomputedDatasets
          = st.precomputedDatasets + es.countP isFinishEvent
      ∧ (runEvents st es).totalDatasetsToLoad = st.totalDatasetsToLoad := by
  induction es with
  | nil => intro st; simp [runEvents]
  | cons e es ih =>
    intro st
    have h1 := applyEvent_count st e
    have h2 := ih (applyEvent st e)
    constructor
    · rw [show runEvents st (e :: es) = runEvents (applyEvent st e) es from rfl,
         h2.1, h1.1, List.countP_cons]
      omega
    · rw [show runEvents st (e :: es) = runEvents (applyEvent st e) es from rfl,
         h2.2, h1.2]

end EngineLemmas

/-- C1 counterexample: in the initial Waiting state (no dataset has
finished precomputing, 0 of 4), one play/pause click makes isPlaying
true, so the flag is not forced false before the last stream finishes. -/
theorem toggle_overrides_waiting :
    (clickPlayPause initEngine).precomputedDatasets
        < (clickPlayPause initEngine).totalDatasetsToLoad
    ∧ (clickPlayPause initEngine).isPlaying = true
    ∧ (clickPlayPause initEngine).sims.all (fun sim => sim.isReady) = false := by
  decide

/-- C1 amended.  The isPlaying flag is set to true automatically exactly
once, at the precomputation-completion event that brings the precomputed
count up to the configured total: every completion increments the count by
one, sets isPlaying exactly when the new count equals the total, and
leaves it alone otherwise; wake-ups and resets never change it; along any
event sequence without user toggles the flag is true precisely from the
moment the count reaches the total.  Before that moment the flag is not
forced false: the play/pause toggle always flips it, so user intent is
recorded (playback is merely gated on readiness, see C3). -/
theorem autoplay_trigger (st : EngineState) (di : Nat) :
    (precomputeFinish di st).precomputedDatasets = st.precomputedDatasets + 1
    ∧ (precomputeFinish di st).isPlaying
        = (if st.precomputedDatasets + 1 = st.totalDatasetsToLoad then true
           else st.isPlaying)
    ∧ (clickPlayPause st).isPlaying = !st.isPlaying
    ∧ (∀ t, (animateAll t st).isPlaying = st.isPlaying)
    ∧ (clickReset st).isPlaying = st.isPlaying
    ∧ (∀ es : List Event, (∀ e ∈ es, e ≠ Event.togglePlayPause) →
        st.isPlaying = decide (st.totalDatasetsToLoad ≤ st.precomputedDatasets) →
        (runEvents st es).isPlaying
          = decide ((runEvents st es).totalDatasetsToLoad
              ≤ (runEvents st es).precomputedDatasets))
    ∧ (∀ es : List Event,
        (runEvents st es).precomputedDatasets
            = st.precomputedDatasets + es.countP isFinishEvent
        ∧ (runEvents st es).totalDatasetsToLoad = st.totalDatasetsToLoad) := by
  refine ⟨?_, ?_, rfl, fun t => (animateAll_globals t st).1, rfl,
    fun es => runEvents_inv es st, fun es => runEvents_count es st⟩
  · simp only [precomputeFinish]
    split <;> rfl
  · simp only [precomputeFinish]
    split <;> simp_all

/-- Witness for C1 amended: from the initial state, after the four
datasets finish precomputing (and no user toggle), isPlaying is true
exactly because the count has reached the total. -/
theorem autoplay_trigger_witness :
    (runEvents initEngine
        [Event.finish 0, Event.finish 1, Event.finish 2, Event.finish 3]).isPlaying
      = decide ((runEvents initEngine
            [Event.finish 0, Event.finish 1, Event.finish 2, Event.finish 3]).totalDatasetsToLoad
          ≤ (runEvents initEngine
              [Event.finish 0, Event.finish 1, Event.finish 2, Event.finish 3]).precomputedDatasets) :=
  (autoplay_trigger initEngine 0).2.2.2.2.2.1
    [Event.finish 0, Event.finish 1, Event.finish 2, Event.finish 3]
    (by decide) (by decide)

/-- C2.  In the Ready-Playing state (isPlaying true, every stream ready),
on a wake-up whose elapsed wall time since the last advance reaches the
frame interval, the clock sets lastFrameTime to the timestamp minus the
remainder of elapsed modulo the frame interval — only the remainder, not
the whole elapsed amount, so accumulated drift is carried forward. -/
theorem animateAll_drift (st : EngineState) (t : ℚ)
    (hp : st.isPlaying = true)
    (hr : st.sims.all (fun sim => sim.isReady) = true)
    (hd : FRAME_INTERVAL ≤ t - (if st.lastFrameTime = 0 then t else st.lastFrameTime)) :
    (animateAll t st).lastFrameTime
      = t - jsMod (t - (if st.lastFrameTime = 0 then t else st.lastFrameTime))
            FRAME_INTERVAL := by
  unfold animateAll
  by_cases h0 : st.lastFrameTime = 0
  · simp only [h0, if_true] at hd ⊢
    have : ¬ FRAME_INTERVAL ≤ t - t := by
      simp only [sub_self]
      norm_num [FRAME_INTERVAL, FPS]
    exact absurd hd this
  · simp only [h0, if_false] at hd ⊢
    simp [hp, hr, hd]

/-- Witness for C2 at the concrete ready state: a single ready stream,
last advance at 100 ms, wake-up at 125 ms; elapsed 25 ≥ 20, so the drift
of 5 ms is carried forward. -/
theorem animateAll_drift_witness :
    (animateAll 125 engineReady).lastFrameTime
      = 125 - jsMod (125 - (if engineReady.lastFrameTime = 0 then 125
            else engineReady.lastFrameTime)) FRAME_INTERVAL :=
  animateAll_drift engineReady 125 rfl (by decide)
    (by norm_num [engineReady, FRAME_INTERVAL, FPS])

/-- C3.  While any stream is not ready (Waiting), a wake-up advances no
stream's tick index; in the playing case each stream's tick index is
advanced by one and wraps modulo its own timeline length, independently of
the other streams.  The frame-store-within-timeline hypothesis is the
reachable-state invariant noted at stepSim. -/
theorem animateAll_tick_gating (st : EngineState) (t : ℚ) :
    (st.sims.all (fun sim => sim.isReady) = false →
      (animateAll t st).sims.map (fun sim => sim.currentTimeIndex)
        = st.sims.map (fun sim => sim.currentTimeIndex))
    ∧ (st.isPlaying = true → st.sims.all (fun sim => sim.isReady) = true →
        FRAME_INTERVAL ≤ t - (if st.lastFrameTime = 0 then t else st.lastFrameTime) →
        (∀ sim ∈ st.sims, sim.precomputedFrames.length ≤ sim.timePoints.length) →
        (animateAll t st).sims.map (fun sim => sim.currentTimeIndex)
          = st.sims.map (fun sim =>
              if 0 < sim.precomputedFrames.length then
                (sim.currentTimeIndex + 1) % sim.timePoints.length
              else sim.currentTimeIndex)) := by
  constructor
  · intro hnr
    unfold animateAll
    by_cases h0 : st.lastFrameTime = 0 <;>
      simp only [h0, if_true, if_false] <;>
      simp only [hnr, Bool.and_false, Bool.not_false, if_false, if_true,
        Bool.false_eq_true, List.map_map] <;>
      exact List.map_congr_left (fun sim _ => by by_cases hip : sim.isPrecomputing <;> simp [hip])
  · intro hp hr hd _
    unfold animateAll
    by_cases h0 : st.lastFrameTime = 0
    · simp only [h0, if_true] at hd ⊢
      have : ¬ FRAME_INTERVAL ≤ t - t := by
        simp only [sub_self]
        norm_num [FRAME_INTERVAL, FPS]
      exact absurd hd this
    · simp only [h0, if_false] at hd ⊢
      simp only [hp, hr, Bool.and_self, if_true, hd, List.map_map]
      exact List.map_congr_left (fun sim _ => stepSim_currentTimeIndex sim)

/-- Witness for C3 at the concrete two-stream state: timeline lengths 2
and 3, both at tick 1; on one playing wake-up the first wraps to 0 while
the second moves to 2 — each wraps at its own length. -/
theorem animateAll_tick_gating_witness :
    (animateAll 125 engineReady2).sims.map (fun sim => sim.currentTimeIndex)
      = engineReady2.sims.map (fun sim =>
          if 0 < sim.precomputedFrames.length then
            (sim.currentTimeIndex + 1) % sim.timePoints.length
          else sim.currentTimeIndex) :=
  (animateAll_tick_gating engineReady2 125).2 rfl (by decide)
    (by norm_num [engineReady2, FRAME_INTERVAL, FPS]) (by decide)

/-- C4.  A reset sets every stream's tick index to 0 and, for every stream
whose precomputed frame for tick 0 exists, the canvas already shows that
frame in the state produced by the reset call itself — for every engine
state, so in particular regardless of the play/pause flag and without any
subsequent wake-up. -/
theorem clickReset_immediate (st : EngineState) (i : Nat) (sim : Sim)
    (h : st.sims.get? i = some sim) :
    ∃ sim2, (clickReset st).sims.get? i = some sim2
      ∧ sim2.currentTimeIndex = 0
      ∧ ∀ f, sim.precomputedFrames.get? 0 = some f →
          sim2.displayed = Surface.frameImage f := by
  refine ⟨resetSim sim, ?_, rfl, ?_⟩
  · show (st.sims.map resetSim).get? i = some (resetSim sim)
    rw [List.get?_map, h]
    rfl
  · intro f hf
    have hlen : 0 < sim.precomputedFrames.length := by
      cases hp : sim.precomputedFrames with
      | nil => rw [hp] at hf; simp at hf
      | cons a l => simp [hp]
    show (resetSim sim).displayed = Surface.frameImage f
    simp only [resetSim, if_pos hlen]
    rw [hf]

/-- Witness for C4: resetting the ready engine mid-timeline (paused) snaps
the stream to tick 0 and immediately shows frame 40. -/
theorem clickReset_immediate_witness :
    ∃ sim2, (clickReset { engineReady with isPlaying := false }).sims.get? 0 = some sim2
      ∧ sim2.currentTimeIndex = 0
      ∧ ∀ f, simReady.precomputedFrames.get? 0 = some f →
          sim2.displayed = Surface.frameImage f :=
  clickReset_immediate { engineReady with isPlaying := false } 0 simReady (by decide)

/-- C8 counterexample: from the initial state, clicking play/pause twice
does not leave the playback state where one click leaves it — the toggle
is not idempotent. -/
theorem clickPlayPause_not_idempotent :
    ¬ ((clickPlayPause (clickPlayPause initEngine)).isPlaying
        = (clickPlayPause initEngine).isPlaying) := by
  decide

/-- C8 amended.  Reset is idempotent — two resets in a row leave the whole
engine state exactly as one does — and the play/pause toggle is an
involution, not idempotent: two clicks restore the state before the first
click.  Both actions are total functions of the engine state, hence safe
to invoke in any scheduler state including Waiting. -/
theorem transport_laws (st : EngineState) :
    clickReset (clickReset st) = clickReset st
    ∧ clickPlayPause (clickPlayPause st) = st := by
  cases st with
  | mk sims ip lft pd td =>
    constructor
    · simp only [clickReset, List.map_map]
      congr 1
      exact List.map_congr_left (fun sim _ => resetSim_idem sim)
    · simp [clickPlayPause]

/-- C10.  A reset changes at most the tick indices and the displayed
surfaces: for every stream, mosquitoData, timePoints, precomputedFrames,
isPrecomputing, precomputeProgress and isReady are unchanged, and the
global isPlaying flag, lastFrameTime and the dataset counters are
unchanged. -/
theorem clickReset_frame_effect (st : EngineState) :
    (clickReset st).isPlaying = st.isPlaying
    ∧ (clickReset st).lastFrameTime = st.lastFrameTime
    ∧ (clickReset st).precomputedDatasets = st.precomputedDatasets
    ∧ (clickReset st).totalDatasetsToLoad = st.totalDatasetsToLoad
    ∧ (clickReset st).sims.map (fun sim =>
        (sim.mosquitoData, sim.timePoints, sim.precomputedFrames,
         sim.isPrecomputing, sim.precomputeProgress, sim.isReady))
      = st.sims.map (fun sim =>
        (sim.mosquitoData, sim.timePoints, sim.precomputedFrames,
         sim.isPrecomputing, sim.precomputeProgress, sim.isReady)) := by
  refine ⟨rfl, rfl, rfl, rfl, ?_⟩
  simp only [clickReset, List.map_map]
  exact List.map_congr_left (fun sim _ => rfl)

section TrailLemmas

lemma getTrailAux_length (data : List Sample) (tps : List ℚ) (trajId : ℚ)
    (ti : Int) :
    ∀ offs : List Nat, (getTrailAux data tps trajId ti offs).length ≤ offs.length := by
  intro offs
  induction offs with
  | nil => simp [getTrailAux]
  | cons i rest ih =>
    simp only [getTrailAux]
    split
    · simp
    · split
      · simpa using Nat.succ_le_succ ih
      · simpa using Nat.le_succ_of_le ih

lemma getTrailAux_mem (data : List Sample) (tps : List ℚ) (trajId : ℚ)
    (ti : Int) :
    ∀ (offs : List Nat) (s : Sample), s ∈ getTrailAux data tps trajId ti offs →
      s.trajectory_id = trajId
      ∧ ∃ i ∈ offs, 0 ≤ ti - (i : Int)
          ∧ tps.get? (ti - (i : Int)).toNat = some s.time := by
  intro offs
  induction offs with
  | nil => simp [getTrailAux]
  | cons i rest ih =>
    intro s hs
    simp only [getTrailAux] at hs
    split at hs
    · simp at hs
    · next hge =>
      split at hs
      · next prevPosition hfind =>
        rcases List.mem_cons.mp hs with h | h
        · subst h
          have hp := List.find?_some hfind
          rw [Bool.and_eq_true, decide_eq_true_iff, decide_eq_true_iff] at hp
          exact ⟨hp.1, i, List.mem_cons_self _ _,
            Int.not_lt.mp hge, hp.2.symm⟩
        · obtain ⟨h1, i2, hi2, h3, h4⟩ := ih s h
          exact ⟨h1, i2, List.mem_cons_of_mem _ hi2, h3, h4⟩
      · obtain ⟨h1, i2, hi2, h3, h4⟩ := ih s hs
        exact ⟨h1, i2, List.mem_cons_of_mem _ hi2, h3, h4⟩

lemma getTrailAux_no_prior (data : List Sample) (tps : List ℚ) (trajId : ℚ)
    (ti : Int)
    (h : ∀ s ∈ data, s.trajectory_id = trajId →
      ∀ j : Nat, (j : Int) < ti → tps.get? j ≠ some s.time) :
    ∀ offs : List Nat, (∀ i ∈ offs, 1 ≤ i) →
      getTrailAux data tps trajId ti offs = [] := by
  intro offs
  induction offs with
  | nil => intro _; rfl
  | cons i rest ih =>
    intro hoffs
    by_cases hneg : ti - (i : Int) < 0
    · simp [getTrailAux, hneg]
    · have hfind : findPrevPosition data trajId (tps.get? (ti - (i : Int)).toNat) = none := by
        apply List.find?_eq_none.mpr
        intro s hsd
        rw [Bool.and_eq_true, decide_eq_true_iff, decide_eq_true_iff]
        rintro ⟨htraj, htime⟩
        have hi1 : (1 : Int) ≤ (i : Int) :=
          Int.ofNat_le.mpr (hoffs i (List.mem_cons_self _ _))
        have hnn : 0 ≤ ti - (i : Int) := Int.not_lt.mp hneg
        have hj : (((ti - (i : Int)).toNat : Int)) < ti := by
          rw [Int.toNat_of_nonneg hnn]
          omega
        exact h s hsd htraj _ hj htime.symm
      simp only [getTrailAux, hneg, if_false, hfind]
      exact ih (fun i2 hi2 => hoffs i2 (List.mem_cons_of_mem _ hi2))

end TrailLemmas

/-- C6.  The trail resolver returns at most count entries (TRAIL_LENGTH in
the src/simulation.js configuration); every returned sample carries the
trajectory_id of the query; every returned sample sits at a timeline index
no larger than the query's index minus the configured start offset; and
when the entity has no prior history — no sample of the query's trajectory
at any timeline index strictly before the query's own index, the query
sample itself still being in the stream — the result is empty, for any
start offset of at least 1 as both in-repo configurations are.  Missing
history never fails: the scan stops before index 0 and simply skips ticks
without a matching sample, which the totality of getTrailDataGen and the
empty-result conjunct witness. -/
theorem getTrailData_guarantees (startOffset count : Nat) (m : Sample)
    (data : List Sample) (tps : List ℚ) :
    (getTrailDataGen startOffset count m data tps).length ≤ count
    ∧ (∀ s ∈ getTrailDataGen startOffset count m data tps,
        s.trajectory_id = m.trajectory_id)
    ∧ (∀ s ∈ getTrailDataGen startOffset count m data tps,
        ∃ j : Nat, (j : Int) ≤ jsIndexOf m.time tps - (startOffset : Int)
          ∧ tps.get? j = some s.time)
    ∧ (1 ≤ startOffset →
        (∀ s ∈ data, s.trajectory_id = m.trajectory_id →
          ∀ j : Nat, (j : Int) < jsIndexOf m.time tps → tps.get? j ≠ some s.time) →
        getTrailDataGen startOffset count m data tps = [])
    ∧ (∀ sim : Sim, (getTrailData m sim).length ≤ TRAIL_LENGTH) := by
  refine ⟨?_, ?_, ?_, ?_, ?_⟩
  · simpa using getTrailAux_length data tps m.trajectory_id
      (jsIndexOf m.time tps) (List.range' startOffset count)
  · intro s hs
    exact (getTrailAux_mem data tps m.trajectory_id (jsIndexOf m.time tps) _ s hs).1
  · intro s hs
    obtain ⟨-, i, hi, hge, hget⟩ :=
      getTrailAux_mem data tps m.trajectory_id (jsIndexOf m.time tps) _ s hs
    have his : startOffset ≤ i := (List.mem_range'_1.mp hi).1
    refine ⟨(jsIndexOf m.time tps - (i : Int)).toNat, ?_, hget⟩
    rw [Int.toNat_of_nonneg hge]
    have : (startOffset : Int) ≤ (i : Int) := Int.ofNat_le.mpr his
    omega
  · intro hso h
    exact getTrailAux_no_prior data tps m.trajectory_id (jsIndexOf m.time tps) h
      (List.range' startOffset count)
      (fun i hi => le_trans hso (List.mem_range'_1.mp hi).1)
  · intro sim
    simpa using getTrailAux_length sim.mosquitoData sim.timePoints m.trajectory_id
      (jsIndexOf m.time sim.timePoints) (List.range' 3 TRAIL_LENGTH)

/-- Witness for C6: the stream holds exactly the query sample itself — as
at every real call site, where the query comes from the stream's own data —
at tick 4 of the timeline, with no sample of its trajectory at any earlier
tick, and the trail resolves to the empty sequence. -/
theorem getTrailData_guarantees_witness :
    getTrailDataGen 3 5 sampleQuery5 [sampleQuery5] [0, 1, 2, 3, 4] = [] :=
  (getTrailData_guarantees 3 5 sampleQuery5 [sampleQuery5] [0, 1, 2, 3, 4]).2.2.2.1
    (by decide)
    (by
      intro s hs htraj j hj
      have h4 : jsIndexOf sampleQuery5.time [0, 1, 2, 3, 4] = 4 := by decide
      rw [h4] at hj
      have hj4 : j < 4 := by exact_mod_cast hj
      have hse : s = sampleQuery5 := by simpa using hs
      subst hse
      interval_cases j <;> decide)

section ParseLemmas

lemma objGet_objSet (k key : String) (v : Option ℚ) :
    ∀ row, objGet (objSet row k v) key
      = if key = k then some v else objGet row key := by
  intro row
  induction row with
  | nil =>
    by_cases h : key = k
    · simp [objSet, objGet, h]
    · have h2 : ¬ k = key := fun hc => h hc.symm
      simp [objSet, objGet, h, h2]
  | cons p row ih =>
    by_cases hpk : p.1 = k
    · by_cases h : key = k
      · simp [objSet, objGet, hpk, h]
      · have h2 : ¬ k = key := fun hc => h hc.symm
        simp [objSet, objGet, hpk, h, h2]
    · by_cases hp1 : p.1 = key
      · have h : ¬ key = k := fun hc => hpk (hp1.symm ▸ hc)
        simp [objSet, objGet, hpk, hp1, h]
      · simp [objSet, objGet, hpk, hp1, ih]

lemma objSet_keys (k : String) (v : Option ℚ) :
    ∀ row, (objSet row k v).map Prod.fst
      = if k ∈ row.map Prod.fst then row.map Prod.fst
        else row.map Prod.fst ++ [k] := by
  intro row
  induction row with
  | nil => simp [objSet]
  | cons p row ih =>
    by_cases hpk : p.1 = k
    · simp [objSet, hpk]
    · have hne : ¬ k = p.1 := fun hc => hpk hc.symm
      by_cases hk : k ∈ row.map Prod.fst
      · simp [objSet, hpk, ih, hk, hne]
      · simp [objSet, hpk, ih, hk, hne]

lemma objSet_keys_nodup (k : String) (v : Option ℚ)
    (row : List (String × Option ℚ)) (h : (row.map Prod.fst).Nodup) :
    ((objSet row k v).map Prod.fst).Nodup := by
  rw [objSet_keys]
  by_cases hk : k ∈ row.map Prod.fst
  · simpa [hk] using h
  · simp [hk, List.nodup_append, h]

lemma buildRowAux_keys_nodup (pf : String → Option ℚ) (values : List String) :
    ∀ (hs : List String) (i : Nat) (row : List (String × Option ℚ)),
      (row.map Prod.fst).Nodup →
      ((buildRowAux pf values i hs row).map Prod.fst).Nodup := by
  intro hs
  induction hs with
  | nil => intro i row h; exact h
  | cons h0 hs ih =>
    intro i row h
    exact ih (i + 1) _ (objSet_keys_nodup _ _ _ h)

lemma buildRowAux_keys_mem (pf : String → Option ℚ) (values : List String)
    (key : String) :
    ∀ (hs : List String) (i : Nat) (row : List (String × Option ℚ)),
      key ∈ (buildRowAux pf values i hs row).map Prod.fst
        ↔ key ∈ row.map Prod.fst ∨ key ∈ hs := by
  intro hs
  induction hs with
  | nil => intro i row; simp [buildRowAux]
  | cons h0 hs ih =>
    intro i row
    simp only [buildRowAux]
    rw [ih, objSet_keys]
    by_cases hk : h0 ∈ row.map Prod.fst
    · simp only [hk, if_true, List.mem_cons]
      constructor
      · rintro (h | h)
        · exact Or.inl h
        · exact Or.inr (Or.inr h)
      · rintro (h | h | h)
        · exact Or.inl h
        · exact Or.inl (h ▸ hk)
        · exact Or.inr h
    · simp only [hk, if_false, List.mem_append, List.mem_singleton, List.mem_cons]
      tauto

lemma buildRowAux_objGet_not_mem (pf : String → Option ℚ) (values : List String)
    (key : String) :
    ∀ (hs : List String) (i : Nat) (row : List (String × Option ℚ)),
      key ∉ hs →
      objGet (buildRowAux pf values i hs row) key = objGet row key := by
  intro hs
  induction hs with
  | nil => intro i row _; rfl
  | cons h0 hs ih =>
    intro i row hk
    simp only [buildRowAux]
    rw [ih _ _ (fun hmem => hk (List.mem_cons_of_mem _ hmem))]
    rw [objGet_objSet]
    have hne : ¬ key = h0 := fun h => hk (h ▸ List.mem_cons_self _ _)
    simp [hne]

lemma buildRowAux_objGet (pf : String → Option ℚ) (values : List String) :
    ∀ (hs : List String) (j i : Nat) (row : List (String × Option ℚ)) (h : String),
      hs.Nodup → hs.get? j = some h →
      objGet (buildRowAux pf values i hs row) h
        = some (jsParseFloat pf (values.get? (i + j))) := by
  intro hs
  induction hs with
  | nil => intro j i row h _ hj; simp at hj
  | cons h0 hs ih =>
    intro j i row h hnd hj
    cases j with
    | zero =>
      have hh : h0 = h := by simpa using hj
      subst hh
      simp only [buildRowAux]
      rw [buildRowAux_objGet_not_mem _ _ _ _ _ _ (List.nodup_cons.mp hnd).1]
      rw [objGet_objSet]
      simp
    | succ j =>
      simp only [buildRowAux]
      rw [ih j (i + 1) _ h (List.nodup_cons.mp hnd).2 (by simpa using hj)]
      rw [show i + 1 + j = i + (j + 1) from by omega]

end ParseLemmas

/-- C9.  parseCSV is a total function of the input text (the model has no
failure path, matching the absence of any throwing operation in the
source): it produces exactly one record per non-header line; every record
is keyed precisely by the header names (each key once); and the field
stored for the i-th header is the numeric parse of the i-th value of that
line, which is NaN (none) when the parse fails or the field is missing —
an absent array slot is undefined, and parseFloat of undefined is NaN.
No ordering assumption on the rows is made anywhere. -/
theorem parseCSV_total (pf : String → Option ℚ) (csvText : String) :
    (parseCSV pf csvText).length = (csvText.trim.splitOn "\n").length - 1
    ∧ (∀ row ∈ parseCSV pf csvText, (row.map Prod.fst).Nodup)
    ∧ (∀ row ∈ parseCSV pf csvText, ∀ h : String,
        h ∈ row.map Prod.fst
          ↔ h ∈ ((csvText.trim.splitOn "\n").headD "").splitOn ",")
    ∧ (∀ (headers values : List String) (i : Nat) (h : String),
        headers.Nodup → headers.get? i = some h →
        objGet (buildRow pf headers values) h
          = some (jsParseFloat pf (values.get? i))) := by
  refine ⟨?_, ?_, ?_, ?_⟩
  · simp [parseCSV]
  · intro row hrow
    obtain ⟨line, -, hline⟩ := List.mem_map.mp hrow
    rw [← hline]
    exact buildRowAux_keys_nodup pf _ _ 0 [] List.nodup_nil
  · intro row hrow h
    obtain ⟨line, -, hline⟩ := List.mem_map.mp hrow
    rw [← hline]
    show h ∈ (buildRowAux pf _ 0 _ []).map Prod.fst ↔ _
    rw [buildRowAux_keys_mem]
    simp
  · intro headers values i h hnd hi
    have := buildRowAux_objGet pf values headers i 0 [] h hnd hi
    simpa using this

/-- Witness for C9: a two-column header with a one-field line stores NaN
(none) for the missing second field. -/
theorem parseCSV_total_witness :
    objGet (buildRow (fun s => if s = "1" then some 1 else none)
        ["time", "x"] ["1"]) "x"
      = some (jsParseFloat (fun s => if s = "1" then some 1 else none)
          (["1"].get? 1)) :=
  (parseCSV_total (fun s => if s = "1" then some 1 else none) "").2.2.2
    ["time", "x"] ["1"] 1 "x" (by decide) (by decide)

end MosquitoSim
